import Mathlib

set_option maxRecDepth 10000

/-!
Verification of the retrocpu program-loader subsystem.

The XMODEM sender of `src/tools/load_program.py` (class `XModemSender`) and
the variant sender of `src/firmware/examples/simple_xmodem.py` are embedded
shallowly: bytes are `Nat` (< 256 where it matters), the serial line is an
explicit environment consisting of
  * `ready`  : the bytes available while the sender polls for the initial NAK,
  * `resps`  : one entry per single-byte blocking read (`none` = read timeout),
and each send loop is translated with recursion on its explicit bound
(the retry loop runs at most `max_retries` times; the chunk loop consumes
at least one byte of the payload per iteration, so `data.length` bounds it).
-/

namespace RetroCPU

/-- `XModemSender.SOH` (start of packet marker, 0x01). -/
def SOH : Nat := 0x01
/-- `XModemSender.EOT` (end of transmission, 0x04). -/
def EOT : Nat := 0x04
/-- `XModemSender.ACK` (0x06). -/
def ACK : Nat := 0x06
/-- `XModemSender.NAK` (0x15). -/
def NAK : Nat := 0x15
/-- `CAN` (cancel, 0x18) as defined in `simple_xmodem.py`. -/
def CAN : Nat := 0x18

/-- Python `k & 0xFF` on a possibly negative int: the canonical representative
of `k` modulo 256. -/
def intMask8 (k : Int) : Nat := (k % 256).toNat

/-- `XModemSender.calculate_checksum`: `sum(data) & 0xFF`
(all inputs are bytes, hence nonnegative, so `&` is `% 256`). -/
def calculate_checksum (data : List Nat) : Nat := data.sum % 256

/-- The padding step of `XModemSender.send_packet`:
`data + b'\x00' * (128 - len(data))`.  In Python a negative repeat count
yields the empty bytes object, exactly like truncated `Nat` subtraction. -/
def padTo128 (data : List Nat) : List Nat :=
  data ++ List.replicate (128 - data.length) 0

/-- The packet built by `XModemSender.send_packet`:
`SOH, packet_num & 0xFF, (~packet_num) & 0xFF`, the padded data, then the
checksum of the padded data.  Python `~n` is `-n - 1`. -/
def mkPacket (packet_num : Nat) (data : List Nat) : List Nat :=
  let packet_data := padTo128 data
  SOH :: (packet_num % 256) :: intMask8 (-(packet_num : Int) - 1) ::
    (packet_data ++ [calculate_checksum packet_data])

/-- `XModemSender.send_packet`: writes the packet, then performs one blocking
read for the response.  Returns the bytes written, the success flag, and the
updated `packet_num` (incremented only on ACK; NAK, timeout and any
unexpected byte — including CAN — all return `False` without touching it). -/
def send_packet (packet_num : Nat) (data : List Nat) (response : Option Nat) :
    List Nat × Bool × Nat :=
  let packet := mkPacket packet_num data
  match response with
  | none => (packet, false, packet_num)
  | some b =>
      if b = ACK then (packet, true, packet_num + 1)
      else (packet, false, packet_num)

/-- The inner retry loop of `XModemSender.send_file`
(`while retries < max_retries: if self.send_packet(chunk): break ...`),
with the remaining retry budget as the recursion fuel.  Returns the list of
packets written (one per attempt), the unconsumed responses, whether the
chunk was acknowledged, and the updated `packet_num`. -/
def trySend (packet_num : Nat) (chunk : List Nat) :
    Nat → List (Option Nat) → List (List Nat) × List (Option Nat) × Bool × Nat
  | 0, resps => ([], resps, false, packet_num)
  | fuel + 1, resps =>
      let r := send_packet packet_num chunk (resps.headD none)
      if r.2.1 then ([r.1], resps.tail, true, r.2.2)
      else
        let rec' := trySend packet_num chunk fuel resps.tail
        (r.1 :: rec'.1, rec'.2.1, rec'.2.2.1, rec'.2.2.2)

/-- The chunk loop of `XModemSender.send_file`
(`while offset < len(data)` over 128-byte slices), recursing on the chunk
list.  Aborts — writing nothing further — as soon as one chunk exhausts its
retries. -/
def send_chunks : Nat → List (List Nat) → Nat → List (Option Nat) →
    List (List Nat) × List (Option Nat) × Bool × Nat
  | packet_num, [], _, resps => ([], resps, true, packet_num)
  | packet_num, c :: cs, max_retries, resps =>
      let r := trySend packet_num c max_retries resps
      if r.2.2.1 then
        let r2 := send_chunks r.2.2.2 cs max_retries r.2.1
        (r.1 ++ r2.1, r2.2.1, r2.2.2.1, r2.2.2.2)
      else (r.1, r.2.1, false, r.2.2.2)

/-- The 128-byte slicing `data[offset:offset+128]` of `send_file`, with the
payload length as fuel (the loop consumes at least one byte per iteration). -/
def chunksGo : Nat → List Nat → List (List Nat)
  | 0, _ => []
  | fuel + 1, data =>
      if data = [] then []
      else data.take 128 :: chunksGo fuel (data.drop 128)

/-- All 128-byte chunks of a payload, in order (last one possibly short). -/
def chunks (data : List Nat) : List (List Nat) := chunksGo data.length data

/-- The initial wait of `send_file`: poll the line, ignore every byte until a
NAK arrives; an exhausted byte stream is the 3-second timeout. -/
def waitInitialNak : List Nat → Bool
  | [] => false
  | b :: bs => if b = NAK then true else waitInitialNak bs

/-- `XModemSender.send_file(data, max_retries=10)`.  Waits for the receiver's
initial NAK, streams the chunks, then writes EOT and requires an ACK for it:
`response = self.ser.read(1); return len(response) > 0 and response[0] == ACK`
(a non-ACK or missing reply to EOT makes the whole call return `False`).
Returns the list of writes and the success flag. -/
def send_file (data : List Nat) (max_retries : Nat) (ready : List Nat)
    (resps : List (Option Nat)) : List (List Nat) × Bool :=
  if waitInitialNak ready then
    let r := send_chunks 1 (chunks data) max_retries resps
    if r.2.2.1 then
      match r.2.1.headD none with
      | some b => (r.1 ++ [[EOT]], b == ACK)
      | none => (r.1 ++ [[EOT]], false)
    else (r.1, false)
  else ([], false)

/-- Externally visible actions of `load_program` (opening the serial port and
writing bytes to it). -/
inductive Action where
  | openPort : Action
  | write : List Nat → Action
deriving DecidableEq

/-- `load_program(binary_path, ...)` from `src/tools/load_program.py`:
`contents` is the file's bytes (`none` = `FileNotFoundError`); `canOpen`
models `serial.Serial` succeeding; `promptOk` models `'> ' in response`
after the wake-up carriage return.  The empty-file check happens before the
port is opened.  Returns the process exit code and the trace of transport
actions; `0x0D`/`0x4C`/`0x4A` are `'\r'`/`'L'`/`'J'`. -/
def load_program (contents : Option (List Nat)) (canOpen promptOk : Bool)
    (ready : List Nat) (resps : List (Option Nat)) (execute : Bool) :
    Nat × List Action :=
  match contents with
  | none => (1, [])
  | some binary_data =>
      if binary_data.length = 0 then (1, [])
      else if canOpen = false then (2, [])
      else
        let acts := [Action.openPort, Action.write [0x0D]]
        if promptOk = false then (1, acts)
        else
          let acts := acts ++ [Action.write [0x4C, 0x0D]]
          let r := send_file binary_data 10 ready resps
          let acts := acts ++ r.1.map Action.write
          if r.2 = false then (1, acts)
          else if execute then (0, acts ++ [Action.write [0x4A, 0x0D]])
          else (0, acts)

/-! ### The variant sender of `src/firmware/examples/simple_xmodem.py` -/

/-- The packet built by `simple_xmodem.send_packet`:
`bytes([SOH, packet_num, (255 - packet_num) & 0xFF]) + data + bytes([checksum])`
with `data` padded only when shorter than 128 bytes.  (`bytes([packet_num])`
requires `packet_num ≤ 255`; all transfers studied here stay in that range.) -/
def up_packet (packet_num : Nat) (data : List Nat) : List Nat :=
  let data' := if data.length < 128
    then data ++ List.replicate (128 - data.length) 0 else data
  let checksum := data'.sum % 256
  let complement := intMask8 (255 - (packet_num : Int))
  SOH :: packet_num :: complement :: (data' ++ [checksum])

/-- `simple_xmodem.send_packet`: writes the packet and reads until the first
ACK/NAK/CAN byte (other bytes are skipped; `response` is that classified byte,
`none` the 3-second timeout).  Only ACK yields `True`; NAK, CAN and timeout
all yield `False`. -/
def up_send_packet (packet_num : Nat) (data : List Nat)
    (response : Option Nat) : List Nat × Bool :=
  let packet := up_packet packet_num data
  match response with
  | none => (packet, false)
  | some b => (packet, b == ACK)

/-- The retry loop of `simple_xmodem.upload_file`
(`for attempt in range(10)` with a `for ... else` failure branch), fuel =
remaining attempts. -/
def up_trySend (packet_num : Nat) (chunk : List Nat) :
    Nat → List (Option Nat) → List (List Nat) × List (Option Nat) × Bool
  | 0, resps => ([], resps, false)
  | fuel + 1, resps =>
      let r := up_send_packet packet_num chunk (resps.headD none)
      if r.2 then ([r.1], resps.tail, true)
      else
        let rec' := up_trySend packet_num chunk fuel resps.tail
        (r.1 :: rec'.1, rec'.2.1, rec'.2.2)

/-- The chunk loop of `upload_file` (`while offset < len(data)`), 10 attempts
per chunk, `packet_num` incremented only on success. -/
def up_chunks : Nat → List (List Nat) → List (Option Nat) →
    List (List Nat) × List (Option Nat) × Bool
  | _, [], resps => ([], resps, true)
  | packet_num, c :: cs, resps =>
      let r := up_trySend packet_num c 10 resps
      if r.2.2 then
        let r2 := up_chunks (packet_num + 1) cs r.2.1
        (r.1 ++ r2.1, r2.2.1, r2.2.2)
      else (r.1, r.2.1, false)

/-- `simple_xmodem.upload_file`: after the initial NAK and the chunk loop it
writes EOT, optionally reads one status byte (printing it either way), and
returns `True` — the EOT response never affects the result. -/
def upload_file (data : List Nat) (ready : List Nat)
    (resps : List (Option Nat)) : List (List Nat) × Bool :=
  if waitInitialNak ready then
    let r := up_chunks 1 (chunks data) resps
    if r.2.2 then (r.1 ++ [[EOT]], true)
    else (r.1, false)
  else ([], false)

/-! ### Monitor response parsing, from `src/tests/firmware/conftest.py`
(`MonitorHelper.examine` / `MonitorHelper.deposit`).  Text is embedded as
`List Char`; the helpers below mirror Python's `str.strip`, `str.split(sep)`,
`str.split()` and `str.upper`. -/

/-- Python `str.strip()`: drop whitespace from both ends. -/
def stripChars (l : List Char) : List Char :=
  ((l.dropWhile Char.isWhitespace).reverse.dropWhile Char.isWhitespace).reverse

/-- Python `str.split(sep)` for a one-character separator: keeps empty
fields, never returns an empty list. -/
def splitOnChar (c : Char) : List Char → List (List Char)
  | [] => [[]]
  | x :: xs =>
      let r := splitOnChar c xs
      if x = c then [] :: r
      else
        match r with
        | [] => [[x]]
        | y :: ys => (x :: y) :: ys

/-- Python `str.split()` (no argument): split on whitespace runs, dropping
empty fields; `acc` holds the current field, reversed. -/
def wsSplitAux : List Char → List Char → List (List Char)
  | [], acc => if acc = [] then [] else [acc.reverse]
  | x :: xs, acc =>
      if x.isWhitespace then
        if acc = [] then wsSplitAux xs []
        else acc.reverse :: wsSplitAux xs []
      else wsSplitAux xs (x :: acc)

def wsSplit (l : List Char) : List (List Char) := wsSplitAux l []

/-- Python `str.upper()` (ASCII suffices here). -/
def upperChars (l : List Char) : List Char := l.map Char.toUpper

/-- Python `needle in haystack` on strings: substring containment. -/
def pyIn (needle : List Char) : List Char → Bool
  | [] => needle.isPrefixOf []
  | h@(_ :: t) => needle.isPrefixOf h || pyIn needle t

/-- Outcome of the parsing loop in `MonitorHelper.examine`: a value, the
`None` fall-through, or the `IndexError` that `parts[1].strip().split()[0]`
raises when nothing follows the colon. -/
inductive ExamineOutcome where
  | value : List Char → ExamineOutcome
  | noValue : ExamineOutcome
  | indexError : ExamineOutcome
deriving DecidableEq

/-- The `for line in result.split('\n')` loop of `MonitorHelper.examine`:
strip the line; if it contains `':'`, split on `':'` and take the first
whitespace-token after the colon; return it uppercased when it has exactly
two characters, else fall through to the next line. -/
def examineLines : List (List Char) → ExamineOutcome
  | [] => .noValue
  | line :: rest =>
      let line' := stripChars line
      if line'.contains ':' then
        let parts := splitOnChar ':' line'
        if 2 ≤ parts.length then
          match wsSplit (stripChars (parts.getD 1 [])) with
          | [] => .indexError
          | vp :: _ =>
              if vp.length = 2 then .value (upperChars vp)
              else examineLines rest
        else examineLines rest
      else examineLines rest

/-- `MonitorHelper.examine(address)`: sends `E <address>` and parses the
captured response text.  The requested `address` shapes only the command; the
parse never consults it. -/
def examine (address : List Char) (result : List Char) : ExamineOutcome :=
  let _ := address
  examineLines (splitOnChar '\n' result)

/-- `MonitorHelper.deposit(address, value)`: sends `D <address> <value>` and
reports success iff
`address.upper() in result.upper() and value.upper() in result.upper()` —
bare substring containment on the whole response. -/
def deposit (address value result : List Char) : Bool :=
  pyIn (upperChars address) (upperChars result) &&
    pyIn (upperChars value) (upperChars result)

/-! ### Address validation (monitor firmware)

The monitor's `L`-command address validator is firmware that is not present
under the source tree; only its placeholder integration test
(`src/tests/integration/test_xmodem_upload.py`, `test_xmodem_address_validation`)
and the spec describe it. -/

inductive AddressCheck where
  | ok : AddressCheck
  | tooLow : AddressCheck
  | inReservedSpace : AddressCheck
deriving DecidableEq

/-- Modelled from the spec: the monitor firmware's address validator is
missing from the source tree (only its placeholder test exists); per §4.5 it
rejects `addr < 0x0200` as TooLow, `addr > 0x7FFF` as InReservedSpace, and
accepts everything else. -/
def validate (addr : Nat) : AddressCheck :=
  if addr < 0x0200 then .tooLow
  else if addr > 0x7FFF then .inReservedSpace
  else .ok

/-- Modelled from the spec: the monitor starts the XMODEM receive (sends the
initial NAK) only when the requested load address validates; an invalid
address prints an error and no transfer begins. -/
def monitorStartReceive (addr : Nat) : Bool :=
  match validate addr with
  | .ok => true
  | _ => false

/-! ### Spec-side description helpers -/

/-- The per-chunk response schedule of a simulated peer: for the `i`-th chunk,
`naks[i]` NAKs followed by one ACK. -/
def respsFor : List Nat → List (Option Nat)
  | [] => []
  | k :: ks => List.replicate k (some NAK) ++ some ACK :: respsFor ks

/-- The writes such a peer elicits: `naks[i] + 1` copies of the `i`-th packet. -/
def expectedWrites : Nat → List Nat → List (List Nat) → List (List Nat)
  | _, _, [] => []
  | _, [], _ :: _ => []
  | pn, k :: ks, c :: cs =>
      List.replicate (k + 1) (mkPacket pn c) ++ expectedWrites (pn + 1) ks cs

/-- The packets of an undisturbed (always-ACK) transfer: one packet per chunk,
consecutive packet numbers. -/
def expectedPackets : Nat → List (List Nat) → List (List Nat)
  | _, [] => []
  | pn, c :: cs => mkPacket pn c :: expectedPackets (pn + 1) cs

/-! ### Helper lemmas -/

theorem padTo128_length_of_le {data : List Nat} (h : data.length ≤ 128) :
    (padTo128 data).length = 128 := by
  simp [padTo128]; omega

theorem padTo128_length (data : List Nat) :
    (padTo128 data).length = max 128 data.length := by
  simp [padTo128]; omega

theorem intMask8_not_eq (n : Nat) :
    intMask8 (-(n : Int) - 1) = intMask8 (255 - (n : Int)) := by
  unfold intMask8
  congr 1
  omega

theorem mkPacket_eq (n : Nat) (data : List Nat) :
    mkPacket n data = SOH :: (n % 256) :: intMask8 (-(n : Int) - 1) ::
      (padTo128 data ++ [calculate_checksum (padTo128 data)]) := rfl

theorem mkPacket_length (n : Nat) (data : List Nat) :
    (mkPacket n data).length = (padTo128 data).length + 4 := by
  simp [mkPacket_eq]

theorem chunksGo_nil (fuel : Nat) : chunksGo fuel [] = [] := by
  cases fuel <;> simp [chunksGo]

theorem chunksGo_congr :
    ∀ fuel₁ fuel₂ (data : List Nat), data.length ≤ fuel₁ →
      data.length ≤ fuel₂ → chunksGo fuel₁ data = chunksGo fuel₂ data := by
  intro fuel₁
  induction fuel₁ with
  | zero =>
      intro fuel₂ data h₁ _
      have : data = [] := by
        cases data with
        | nil => rfl
        | cons a l => simp at h₁
      subst this
      rw [chunksGo_nil, chunksGo_nil]
  | succ f ih =>
      intro fuel₂ data h₁ h₂
      cases data with
      | nil => rw [chunksGo_nil, chunksGo_nil]
      | cons a l =>
          cases fuel₂ with
          | zero => simp at h₂
          | succ f₂ =>
              simp only [chunksGo, if_neg (List.cons_ne_nil a l)]
              congr 1
              apply ih <;>
                simp only [List.length_drop, List.length_cons] at h₁ h₂ ⊢ <;>
                omega

theorem chunks_cons {data : List Nat} (h : data ≠ []) :
    chunks data = data.take 128 :: chunks (data.drop 128) := by
  have hpos : 0 < data.length := List.length_pos.mpr h
  unfold chunks
  obtain ⟨m, hm⟩ : ∃ m, data.length = m + 1 := ⟨data.length - 1, by omega⟩
  rw [hm]
  simp only [chunksGo, if_neg h]
  congr 1
  apply chunksGo_congr
  · simp; omega
  · simp

theorem chunks_nil : chunks [] = [] := rfl

theorem chunks_length (data : List Nat) :
    (chunks data).length = (data.length + 127) / 128 := by
  by_cases h : data = []
  · subst h; simp [chunks_nil]
  · rw [chunks_cons h]
    have ih := chunks_length (data.drop 128)
    have hpos : 0 < data.length := List.length_pos.mpr h
    simp only [List.length_cons, ih, List.length_drop]
    omega
termination_by data.length
decreasing_by
  simp only [List.length_drop]
  have hpos : 0 < data.length := List.length_pos.mpr h
  omega

theorem chunks_flatten (data : List Nat) : (chunks data).flatten = data := by
  by_cases h : data = []
  · subst h; simp [chunks_nil]
  · rw [chunks_cons h]
    have ih := chunks_flatten (data.drop 128)
    simp only [List.flatten_cons, ih, List.take_append_drop]
termination_by data.length
decreasing_by
  simp only [List.length_drop]
  have hpos : 0 < data.length := List.length_pos.mpr h
  omega

theorem up_packet_eq_mkPacket (pn : Nat) (c : List Nat) (hpn : pn < 256) :
    up_packet pn c = mkPacket pn c := by
  have hpad : (if c.length < 128
      then c ++ List.replicate (128 - c.length) 0 else c) = padTo128 c := by
    split
    · rfl
    · rw [padTo128]
      have h0 : 128 - c.length = 0 := by omega
      rw [h0]
      simp
  unfold up_packet
  rw [mkPacket_eq]
  dsimp only
  rw [hpad, Nat.mod_eq_of_lt hpn, intMask8_not_eq]
  rfl

theorem send_packet_fst (pn : Nat) (c : List Nat) (r : Option Nat) :
    (send_packet pn c r).1 = mkPacket pn c := by
  cases r with
  | none => rfl
  | some b =>
      unfold send_packet
      dsimp only
      split <;> rfl

theorem send_packet_some_ack (pn : Nat) (c : List Nat) :
    send_packet pn c (some ACK) = (mkPacket pn c, true, pn + 1) := by
  simp [send_packet]

theorem send_packet_not_ack (pn : Nat) (c : List Nat) {b : Nat} (h : b ≠ ACK) :
    send_packet pn c (some b) = (mkPacket pn c, false, pn) := by
  simp [send_packet, h]

/-- C1: for every sequence number `n` and chunk of 1..128 bytes, the packet
written by `send_packet` is exactly 132 bytes; byte0 is the 0x01 start
marker, byte1 is `n & 0xFF`, byte2 is `(255 - n) & 0xFF`, bytes 3..130 are
the chunk zero-padded to 128 bytes, byte131 is the 8-bit sum of the padded
payload; the complement and checksum invariants hold of the packet itself;
the `simple_xmodem` encoder builds the identical packet for every in-range
sequence byte. -/
theorem C1_packet_wire_format (n : Nat) (chunk : List Nat)
    (h1 : 1 ≤ chunk.length) (h2 : chunk.length ≤ 128) :
    (mkPacket n chunk).length = 132 ∧
    (mkPacket n chunk).getD 0 0 = 0x01 ∧
    (mkPacket n chunk).getD 1 0 = n % 256 ∧
    (mkPacket n chunk).getD 2 0 = intMask8 (255 - (n : Int)) ∧
    ((mkPacket n chunk).drop 3).take 128 = padTo128 chunk ∧
    (mkPacket n chunk).getD 131 0 = (padTo128 chunk).sum % 256 ∧
    (mkPacket n chunk).getD 2 0
      = intMask8 (255 - ((mkPacket n chunk).getD 1 0 : Int)) ∧
    (mkPacket n chunk).getD 131 0
      = (((mkPacket n chunk).drop 3).take 128).sum % 256 ∧
    (∀ (pn : Nat) (c : List Nat), pn < 256 → up_packet pn c = mkPacket pn c) := by
  have hp : (padTo128 chunk).length = 128 := padTo128_length_of_le h2
  have hdrop : (mkPacket n chunk).drop 3
      = padTo128 chunk ++ [calculate_checksum (padTo128 chunk)] := by
    rw [mkPacket_eq]; rfl
  have htake : ((mkPacket n chunk).drop 3).take 128 = padTo128 chunk := by
    rw [hdrop, ← hp, List.take_left]
  have hlast : (mkPacket n chunk).getD 131 0
      = calculate_checksum (padTo128 chunk) := by
    rw [mkPacket_eq]
    simp only [List.getD_cons_succ]
    rw [List.getD_append_right _ _ _ _ (by omega : (padTo128 chunk).length ≤ 128)]
    simp [hp]
  have hb1 : (mkPacket n chunk).getD 1 0 = n % 256 := by
    rw [mkPacket_eq]; rfl
  have hb2 : (mkPacket n chunk).getD 2 0 = intMask8 (255 - (n : Int)) := by
    rw [mkPacket_eq]
    simp only [List.getD_cons_succ, List.getD_cons_zero]
    exact intMask8_not_eq n
  have hb2' : (mkPacket n chunk).getD 2 0
      = intMask8 (255 - ((mkPacket n chunk).getD 1 0 : Int)) := by
    rw [hb2, hb1]
    unfold intMask8
    congr 1
    omega
  refine ⟨?_, rfl, hb1, hb2, htake, ?_, hb2', ?_, ?_⟩
  · rw [mkPacket_length, hp]
  · rw [hlast]; rfl
  · rw [hlast, htake]; rfl
  · intro pn c hpn
    exact up_packet_eq_mkPacket pn c hpn

/-- Witness for C1 at `n = 3`, `chunk = [7, 8]`. -/
theorem C1_witness : (mkPacket 3 [7, 8]).length = 132 :=
  (C1_packet_wire_format 3 [7, 8] (by decide) (by decide)).1

theorem trySend_succ_ack (pn : Nat) (c : List Nat) (fuel : Nat)
    (resps : List (Option Nat)) :
    trySend pn c (fuel + 1) (some ACK :: resps)
      = ([mkPacket pn c], resps, true, pn + 1) := by
  conv_lhs => rw [trySend]
  simp [send_packet_some_ack]

theorem trySend_succ_not_ack (pn : Nat) (c : List Nat) (fuel : Nat) {b : Nat}
    (hb : b ≠ ACK) (resps : List (Option Nat)) :
    trySend pn c (fuel + 1) (some b :: resps)
      = (mkPacket pn c :: (trySend pn c fuel resps).1,
         (trySend pn c fuel resps).2.1,
         (trySend pn c fuel resps).2.2.1,
         (trySend pn c fuel resps).2.2.2) := by
  conv_lhs => rw [trySend]
  simp [send_packet_not_ack pn c hb]

theorem trySend_nak_ack (pn : Nat) (c : List Nat) :
    ∀ (k fuel : Nat) (rest : List (Option Nat)),
      trySend pn c (k + fuel + 1)
          (List.replicate k (some NAK) ++ some ACK :: rest)
        = (List.replicate (k + 1) (mkPacket pn c), rest, true, pn + 1) := by
  intro k
  induction k with
  | zero =>
      intro fuel rest
      simp only [Nat.zero_add, List.replicate_zero, List.nil_append]
      simp [trySend_succ_ack]
  | succ k ih =>
      intro fuel rest
      have harith : k + 1 + fuel + 1 = (k + fuel + 1) + 1 := by omega
      rw [harith]
      simp only [List.replicate_succ, List.cons_append]
      rw [trySend_succ_not_ack pn c (k + fuel + 1) (by simp [NAK, ACK])]
      rw [ih fuel rest]
      simp [List.replicate_succ]

theorem trySend_all_nak (pn : Nat) (c : List Nat) :
    ∀ (mr : Nat) (rest : List (Option Nat)),
      trySend pn c mr (List.replicate mr (some NAK) ++ rest)
        = (List.replicate mr (mkPacket pn c), rest, false, pn) := by
  intro mr
  induction mr with
  | zero => intro rest; simp [trySend]
  | succ mr ih =>
      intro rest
      simp only [List.replicate_succ, List.cons_append]
      rw [trySend_succ_not_ack pn c mr (by simp [NAK, ACK])]
      rw [ih rest]

theorem trySend_writes (pn : Nat) (c : List Nat) :
    ∀ (fuel : Nat) (resps : List (Option Nat)) (w : List Nat),
      w ∈ (trySend pn c fuel resps).1 → w = mkPacket pn c := by
  intro fuel
  induction fuel with
  | zero => intro resps w h; simp [trySend] at h
  | succ fuel ih =>
      intro resps w h
      simp only [trySend] at h
      by_cases hok : (send_packet pn c (resps.headD none)).2.1
      · rw [if_pos hok] at h
        simp only [List.mem_singleton] at h
        rw [h, send_packet_fst]
      · rw [if_neg hok] at h
        simp only [List.mem_cons] at h
        rcases h with h | h
        · rw [h, send_packet_fst]
        · exact ih resps.tail w h

theorem trySend_head? (pn : Nat) (c : List Nat) (fuel : Nat)
    (resps : List (Option Nat)) :
    (trySend pn c (fuel + 1) resps).1.head? = some (mkPacket pn c) := by
  simp only [trySend]
  by_cases hok : (send_packet pn c (resps.headD none)).2.1
  · rw [if_pos hok]; simp [send_packet_fst]
  · rw [if_neg hok]; simp [send_packet_fst]

theorem send_chunks_schedule :
    ∀ (cs : List (List Nat)) (ks : List Nat) (pn mr : Nat)
      (rest : List (Option Nat)),
      ks.length = cs.length → (∀ k ∈ ks, k + 1 ≤ mr) →
      send_chunks pn cs mr (respsFor ks ++ rest)
        = (expectedWrites pn ks cs, rest, true, pn + cs.length) := by
  intro cs
  induction cs with
  | nil =>
      intro ks pn mr rest hlen _
      have hks : ks = [] := List.eq_nil_of_length_eq_zero (by simpa using hlen)
      subst hks
      simp [send_chunks, respsFor, expectedWrites]
  | cons c cs ih =>
      intro ks pn mr rest hlen hk
      cases ks with
      | nil => simp at hlen
      | cons k ks =>
          have hkk : k + 1 ≤ mr := hk k (List.mem_cons_self k ks)
          obtain ⟨fuel, hfuel⟩ : ∃ fuel, mr = k + fuel + 1 :=
            ⟨mr - k - 1, by omega⟩
          have hshape : respsFor (k :: ks) ++ rest
              = List.replicate k (some NAK) ++ some ACK :: (respsFor ks ++ rest) := by
            simp [respsFor]
          rw [hshape]
          simp only [send_chunks]
          rw [hfuel, trySend_nak_ack pn c k fuel (respsFor ks ++ rest)]
          simp only [ih ks (pn + 1) (k + fuel + 1) rest (by simpa using hlen)
            (fun x hx => hfuel ▸ hk x (List.mem_cons_of_mem k hx))]
          simp only [expectedWrites, List.length_cons, if_true]
          simp only [Prod.mk.injEq]
          exact ⟨trivial, trivial, trivial, by omega⟩

theorem send_chunks_first_fails (pn mr : Nat) (c : List Nat)
    (cs : List (List Nat)) (rest : List (Option Nat)) :
    send_chunks pn (c :: cs) mr (List.replicate mr (some NAK) ++ rest)
      = (List.replicate mr (mkPacket pn c), rest, false, pn) := by
  simp only [send_chunks]
  rw [trySend_all_nak pn c mr rest]
  simp

theorem send_file_schedule (data : List Nat) (mr : Nat) (ready : List Nat)
    (ks : List Nat) (rest : List (Option Nat))
    (hready : waitInitialNak ready = true)
    (hlen : ks.length = (chunks data).length)
    (hk : ∀ k ∈ ks, k + 1 ≤ mr) :
    send_file data mr ready (respsFor ks ++ some ACK :: rest)
      = (expectedWrites 1 ks (chunks data) ++ [[EOT]], true) := by
  unfold send_file
  rw [hready, if_pos rfl]
  rw [send_chunks_schedule (chunks data) ks 1 mr (some ACK :: rest) hlen hk]
  simp

theorem send_file_all_nak (data : List Nat) (mr : Nat) (ready : List Nat)
    (rest : List (Option Nat)) (hdata : data ≠ [])
    (hready : waitInitialNak ready = true) :
    send_file data mr ready (List.replicate mr (some NAK) ++ rest)
      = (List.replicate mr (mkPacket 1 (data.take 128)), false) := by
  unfold send_file
  rw [hready, if_pos rfl, chunks_cons hdata]
  rw [send_chunks_first_fails 1 mr (data.take 128) (chunks (data.drop 128)) rest]
  simp

/-- C2: a chunk answered with `max_retries - 1` NAKs then an ACK is delivered
after exactly `max_retries` send attempts and the transfer goes on to
succeed; a chunk answered only with NAKs makes `send_file` fail after
exactly `max_retries` attempts, with no further bytes written for that chunk
(or for anything after it) and the whole transfer reported as failed. -/
theorem C2_retry_policy :
    (∀ (pn : Nat) (c : List Nat) (mr : Nat) (rest : List (Option Nat)),
        1 ≤ mr →
        trySend pn c mr (List.replicate (mr - 1) (some NAK) ++ some ACK :: rest)
          = (List.replicate mr (mkPacket pn c), rest, true, pn + 1)) ∧
    (∀ (pn : Nat) (c : List Nat) (mr : Nat) (rest : List (Option Nat)),
        trySend pn c mr (List.replicate mr (some NAK) ++ rest)
          = (List.replicate mr (mkPacket pn c), rest, false, pn)) ∧
    (∀ (data : List Nat) (mr : Nat) (ready : List Nat) (ks : List Nat)
        (rest : List (Option Nat)),
        waitInitialNak ready = true → ks.length = (chunks data).length →
        (∀ k ∈ ks, k + 1 ≤ mr) →
        (send_file data mr ready (respsFor ks ++ some ACK :: rest)).2 = true) ∧
    (∀ (data : List Nat) (mr : Nat) (ready : List Nat)
        (rest : List (Option Nat)),
        data ≠ [] → waitInitialNak ready = true →
        send_file data mr ready (List.replicate mr (some NAK) ++ rest)
          = (List.replicate mr (mkPacket 1 (data.take 128)), false)) := by
  refine ⟨?_, ?_, ?_, ?_⟩
  · intro pn c mr rest hmr
    obtain ⟨m, rfl⟩ : ∃ m, mr = m + 1 := ⟨mr - 1, by omega⟩
    simp only [Nat.add_sub_cancel]
    have h := trySend_nak_ack pn c m 0 rest
    simpa using h
  · intro pn c mr rest
    exact trySend_all_nak pn c mr rest
  · intro data mr ready ks rest hready hlen hk
    rw [send_file_schedule data mr ready ks rest hready hlen hk]
  · intro data mr ready rest hdata hready
    exact send_file_all_nak data mr ready rest hdata hready

/-- Witness for C2: one chunk, `max_retries = 2`, always-NAK peer — failure
after exactly two attempts, no EOT written. -/
theorem C2_witness :
    send_file [7] 2 [NAK] (List.replicate 2 (some NAK) ++ [])
      = (List.replicate 2 (mkPacket 1 ([7].take 128)), false) :=
  C2_retry_policy.2.2.2 [7] 2 [NAK] [] (by decide) (by decide)

theorem up_send_packet_not_ack (pn : Nat) (c : List Nat) {b : Nat}
    (hb : (b == ACK) = false) :
    up_send_packet pn c (some b) = (up_packet pn c, false) := by
  simp [up_send_packet, hb]

theorem up_trySend_succ_not_ack (pn : Nat) (c : List Nat) (fuel : Nat)
    {b : Nat} (hb : (b == ACK) = false) (resps : List (Option Nat)) :
    up_trySend pn c (fuel + 1) (some b :: resps)
      = (up_packet pn c :: (up_trySend pn c fuel resps).1,
         (up_trySend pn c fuel resps).2.1,
         (up_trySend pn c fuel resps).2.2) := by
  conv_lhs => rw [up_trySend]
  simp [up_send_packet_not_ack pn c hb]

/-- C3 counterexample: with `max_retries = 2` and a peer that answers the
first packet with Cancel (0x18) and everything afterwards with ACK, the
`load_program` sender resends the same packet after the Cancel and the
transfer completes successfully — it does not abort and the retry count is
not zero. -/
theorem C3_counterexample :
    send_file [7] 2 [NAK] [some CAN, some ACK, some ACK]
      = ([mkPacket 1 [7], mkPacket 1 [7], [EOT]], true) := by decide

/-- C3 (amended): a Cancel byte received while awaiting a packet response is
not special-cased by either sender; it is handled exactly like a NAK (or any
other unexpected byte): the same packet is resent, subject only to the
normal retry limit, and no abort occurs. -/
theorem C3_cancel_treated_as_nak :
    (∀ (pn : Nat) (c : List Nat) (fuel : Nat) (rest : List (Option Nat)),
        trySend pn c (fuel + 1) (some CAN :: rest)
          = trySend pn c (fuel + 1) (some NAK :: rest)) ∧
    (∀ (pn : Nat) (c : List Nat) (fuel : Nat) (rest : List (Option Nat)),
        up_trySend pn c (fuel + 1) (some CAN :: rest)
          = up_trySend pn c (fuel + 1) (some NAK :: rest)) := by
  constructor
  · intro pn c fuel rest
    rw [trySend_succ_not_ack pn c fuel (by decide) rest,
      trySend_succ_not_ack pn c fuel (by decide) rest]
  · intro pn c fuel rest
    rw [up_trySend_succ_not_ack pn c fuel (by decide) rest,
      up_trySend_succ_not_ack pn c fuel (by decide) rest]

/-- C4 counterexample: a peer that ACKs the only data packet but NAKs the
EOT makes `XModemSender.send_file` return failure — the whole transfer is
reported failed even though every data byte was acknowledged. -/
theorem C4_counterexample :
    send_file [7] 10 [NAK] [some ACK, some NAK]
      = ([mkPacket 1 [7], [EOT]], false) := by decide

/-- C4 (amended): in `load_program`'s `send_file` a non-ACK or missing
response to EOT makes the whole transfer fail (there is no incomplete-finish
partial success and no `bytes_sent` report); in `simple_xmodem`'s
`upload_file` the EOT response is ignored entirely and the transfer returns
success once every chunk has been acknowledged. -/
theorem C4_eot_handling :
    (∀ (data : List Nat) (mr : Nat) (ready ks : List Nat)
        (rest : List (Option Nat)) (b : Nat),
        waitInitialNak ready = true → ks.length = (chunks data).length →
        (∀ k ∈ ks, k + 1 ≤ mr) →
        (send_file data mr ready (respsFor ks ++ some b :: rest)).2
          = (b == ACK)) ∧
    (∀ (data : List Nat) (mr : Nat) (ready ks : List Nat),
        waitInitialNak ready = true → ks.length = (chunks data).length →
        (∀ k ∈ ks, k + 1 ≤ mr) →
        (send_file data mr ready (respsFor ks)).2 = false) ∧
    (∀ (data ready : List Nat) (resps : List (Option Nat))
        (ws : List (List Nat)) (rs : List (Option Nat)),
        waitInitialNak ready = true →
        up_chunks 1 (chunks data) resps = (ws, rs, true) →
        upload_file data ready resps = (ws ++ [[EOT]], true)) := by
  refine ⟨?_, ?_, ?_⟩
  · intro data mr ready ks rest b hready hlen hk
    unfold send_file
    rw [hready, if_pos rfl]
    rw [send_chunks_schedule (chunks data) ks 1 mr (some b :: rest) hlen hk]
    simp
  · intro data mr ready ks hready hlen hk
    unfold send_file
    rw [hready, if_pos rfl]
    have h := send_chunks_schedule (chunks data) ks 1 mr [] hlen hk
    rw [List.append_nil] at h
    rw [h]
    simp
  · intro data ready resps ws rs hready hup
    unfold upload_file
    rw [hready, if_pos rfl, hup]
    simp

/-- Witness for C4 at a one-chunk payload with the EOT answered by NAK. -/
theorem C4_witness :
    (send_file [7] 1 [NAK] (respsFor [0] ++ some NAK :: [])).2 = (NAK == ACK) :=
  C4_eot_handling.1 [7] 1 [NAK] [0] [] NAK (by decide) (by decide) (by decide)

/-- C9 counterexample: `send_packet` performs no chunk-size validation — an
empty chunk is padded to a full 132-byte packet and written, and a 129-byte
chunk is written as a 133-byte packet; no error is raised in either case. -/
theorem C9_counterexample :
    (send_packet 1 [] (some ACK)).1.length = 132 ∧
    (send_packet 1 (List.replicate 129 7) (some ACK)).1.length = 133 := by
  decide

/-- C9 (amended): packet encoding never fails: for every chunk the packet is
built and handed to the transport unconditionally; an empty chunk gives the
standard 132-byte packet (all-zero payload) and a chunk longer than 128
bytes gives an oversized packet of `length + 4` bytes. -/
theorem C9_no_size_check :
    ∀ (pn : Nat) (data : List Nat) (r : Option Nat),
      (send_packet pn data r).1 = mkPacket pn data ∧
      (mkPacket pn data).length = max 128 data.length + 4 ∧
      (data.length = 0 → (mkPacket pn data).length = 132) ∧
      (128 < data.length → (mkPacket pn data).length = data.length + 4) := by
  intro pn data r
  have hlen : (mkPacket pn data).length = max 128 data.length + 4 := by
    rw [mkPacket_length, padTo128_length]
  refine ⟨send_packet_fst pn data r, hlen, ?_, ?_⟩
  · intro h0; rw [hlen]; omega
  · intro hgt; rw [hlen]; omega

/-- Witness for C9 at an empty chunk. -/
theorem C9_witness : (mkPacket 2 []).length = 132 :=
  (C9_no_size_check 2 [] none).2.2.1 rfl

/-- C10: a file that exists but is empty makes `load_program` return exit
code 1 with an empty action trace: the serial port is never opened, no
command is sent, and no packet or control byte is written. -/
theorem C10_empty_file :
    ∀ (canOpen promptOk : Bool) (ready : List Nat)
      (resps : List (Option Nat)) (execute : Bool),
      load_program (some []) canOpen promptOk ready resps execute = (1, []) := by
  intro canOpen promptOk ready resps execute
  simp [load_program]

theorem respsFor_zeros :
    ∀ n : Nat, respsFor (List.replicate n 0) = List.replicate n (some ACK) := by
  intro n
  induction n with
  | zero => rfl
  | succ n ih => simp [List.replicate_succ, respsFor, ih]

theorem expectedWrites_zeros :
    ∀ (cs : List (List Nat)) (pn : Nat),
      expectedWrites pn (List.replicate cs.length 0) cs
        = expectedPackets pn cs := by
  intro cs
  induction cs with
  | nil => intro pn; rfl
  | cons c cs ih =>
      intro pn
      simp only [List.length_cons, List.replicate_succ, expectedWrites,
        expectedPackets, ih (pn + 1)]
      rfl

theorem mkPacket_getD_one (pn : Nat) (c : List Nat) :
    (mkPacket pn c).getD 1 0 = pn % 256 := by
  rw [mkPacket_eq]; rfl

theorem send_chunks_head? (pn : Nat) (c : List Nat) (cs : List (List Nat))
    (mr : Nat) (resps : List (Option Nat)) (hmr : 1 ≤ mr) :
    (send_chunks pn (c :: cs) mr resps).1.head? = some (mkPacket pn c) := by
  obtain ⟨fuel, rfl⟩ : ∃ f, mr = f + 1 := ⟨mr - 1, by omega⟩
  simp only [send_chunks]
  split
  · rw [List.head?_append, trySend_head?]
    rfl
  · exact trySend_head? pn c fuel resps

theorem send_file_head? (data : List Nat) (mr : Nat) (ready : List Nat)
    (resps : List (Option Nat)) (hdata : data ≠ []) (hmr : 1 ≤ mr)
    (hready : waitInitialNak ready = true) :
    (send_file data mr ready resps).1.head?
      = some (mkPacket 1 (data.take 128)) := by
  unfold send_file
  rw [hready, if_pos rfl, chunks_cons hdata]
  have hh := send_chunks_head? 1 (data.take 128) (chunks (data.drop 128))
    mr resps hmr
  dsimp only
  split
  · split
    · rw [List.head?_append, hh]; rfl
    · rw [List.head?_append, hh]; rfl
  · exact hh

theorem chunks_mem_le (data : List Nat) :
    ∀ c ∈ chunks data, c.length ≤ 128 := by
  by_cases h : data = []
  · subst h; intro c hc; simp [chunks_nil] at hc
  · rw [chunks_cons h]
    intro c hc
    rcases List.mem_cons.mp hc with hc | hc
    · subst hc; simp
    · exact chunks_mem_le (data.drop 128) c hc
termination_by data.length
decreasing_by
  simp only [List.length_drop]
  have hpos : 0 < data.length := List.length_pos.mpr h
  omega

theorem mkPacket_take_payload (pn : Nat) (c : List Nat) :
    ((mkPacket pn c).drop 3).take c.length = c := by
  rw [mkPacket_eq]
  simp only [List.drop_succ_cons, List.drop_zero]
  rw [padTo128, List.append_assoc]
  exact List.take_left c _

/-- C5: the first packet of every transfer carries sequence 1; a
retransmitted packet is byte-for-byte the packet it retries (same sequence);
under an always-ACK peer the packets written are exactly one per chunk with
consecutive packet numbers starting at 1; the on-wire sequence byte of
packet number `pn` is `pn % 256`, so it wraps 255 → 0 → 1. -/
theorem C5_sequence_numbers :
    (∀ (data : List Nat) (mr : Nat) (ready : List Nat)
        (resps : List (Option Nat)),
        data ≠ [] → 1 ≤ mr → waitInitialNak ready = true →
        (send_file data mr ready resps).1.head?
          = some (mkPacket 1 (data.take 128))) ∧
    (∀ (pn : Nat) (c : List Nat) (fuel : Nat) (resps : List (Option Nat))
        (w : List Nat),
        w ∈ (trySend pn c fuel resps).1 → w = mkPacket pn c) ∧
    (∀ (data : List Nat) (mr : Nat) (ready : List Nat)
        (rest : List (Option Nat)),
        1 ≤ mr → waitInitialNak ready = true →
        (send_file data mr ready
            (List.replicate (chunks data).length (some ACK)
              ++ some ACK :: rest)).1
          = expectedPackets 1 (chunks data) ++ [[EOT]]) ∧
    (∀ (pn : Nat) (c : List Nat), (mkPacket pn c).getD 1 0 = pn % 256) ∧
    (∀ c : List Nat,
        (mkPacket 255 c).getD 1 0 = 255 ∧ (mkPacket 256 c).getD 1 0 = 0 ∧
        (mkPacket 257 c).getD 1 0 = 1) := by
  refine ⟨?_, ?_, ?_, mkPacket_getD_one, ?_⟩
  · intro data mr ready resps hdata hmr hready
    exact send_file_head? data mr ready resps hdata hmr hready
  · intro pn c fuel resps w hw
    exact trySend_writes pn c fuel resps w hw
  · intro data mr ready rest hmr hready
    rw [← respsFor_zeros]
    have hlen : (List.replicate (chunks data).length 0).length
        = (chunks data).length := by simp
    have hk : ∀ k ∈ List.replicate (chunks data).length 0, k + 1 ≤ mr := by
      intro k hk
      rw [List.eq_of_mem_replicate hk]
      omega
    rw [send_file_schedule data mr ready _ rest hready hlen hk,
      expectedWrites_zeros]
  · intro c
    refine ⟨?_, ?_, ?_⟩ <;> rw [mkPacket_getD_one]

/-- Witness for C5: a one-byte payload, `max_retries = 1`, an ACKing peer. -/
theorem C5_witness :
    (send_file [7] 1 [NAK] [some ACK]).1.head?
      = some (mkPacket 1 ([7].take 128)) :=
  C5_sequence_numbers.1 [7] 1 [NAK] [some ACK] (by decide) (by decide)
    (by decide)

/-- C6: a payload splits into exactly `ceil(len / 128)` chunks of at most
128 bytes whose in-order concatenation is the payload; each packet carries
its chunk verbatim at payload offset 0 (zero padding after it); an
acknowledged transfer writes exactly one packet per chunk, in order, with
consecutive sequence numbers, followed by EOT. -/
theorem C6_chunking :
    (∀ data : List Nat, (chunks data).length = (data.length + 127) / 128) ∧
    (∀ data : List Nat, (chunks data).flatten = data) ∧
    (∀ (data c : List Nat), c ∈ chunks data → c.length ≤ 128) ∧
    (∀ (pn : Nat) (c : List Nat), ((mkPacket pn c).drop 3).take c.length = c) ∧
    (∀ (data : List Nat) (mr : Nat) (ready : List Nat)
        (rest : List (Option Nat)),
        1 ≤ mr → waitInitialNak ready = true →
        send_file data mr ready
            (List.replicate (chunks data).length (some ACK)
              ++ some ACK :: rest)
          = (expectedPackets 1 (chunks data) ++ [[EOT]], true)) := by
  refine ⟨chunks_length, chunks_flatten, ?_, mkPacket_take_payload, ?_⟩
  · intro data c hc
    exact chunks_mem_le data c hc
  · intro data mr ready rest hmr hready
    rw [← respsFor_zeros]
    have hlen : (List.replicate (chunks data).length 0).length
        = (chunks data).length := by simp
    have hk : ∀ k ∈ List.replicate (chunks data).length 0, k + 1 ≤ mr := by
      intro k hk
      rw [List.eq_of_mem_replicate hk]
      omega
    rw [send_file_schedule data mr ready _ rest hready hlen hk,
      expectedWrites_zeros]

/-- Witness for C6: the acknowledged two-chunk transfer of a 129-byte
payload. -/
theorem C6_witness :
    send_file (List.replicate 129 5) 1 [NAK]
        (List.replicate (chunks (List.replicate 129 5)).length (some ACK)
          ++ some ACK :: [])
      = (expectedPackets 1 (chunks (List.replicate 129 5)) ++ [[EOT]], true) :=
  C6_chunking.2.2.2.2 (List.replicate 129 5) 1 [NAK] [] (by decide) (by decide)

/-- C7: address validation for the load command rejects addresses below
0x0200 as too-low and above 0x7FFF as reserved-space, accepts the whole
range 0x0200..0x7FFF including both boundaries, and an invalid address
means the monitor never starts the XMODEM receive — no transfer begins. -/
theorem C7_address_validation :
    validate 0x01FF = AddressCheck.tooLow ∧
    validate 0x0200 = AddressCheck.ok ∧
    validate 0x7FFF = AddressCheck.ok ∧
    validate 0x8000 = AddressCheck.inReservedSpace ∧
    (∀ a : Nat, a < 0x0200 → validate a = AddressCheck.tooLow) ∧
    (∀ a : Nat, 0x7FFF < a → validate a = AddressCheck.inReservedSpace) ∧
    (∀ a : Nat, 0x0200 ≤ a → a ≤ 0x7FFF → validate a = AddressCheck.ok) ∧
    (∀ a : Nat, validate a ≠ AddressCheck.ok →
        monitorStartReceive a = false) := by
  refine ⟨by decide, by decide, by decide, by decide, ?_, ?_, ?_, ?_⟩
  · intro a h
    unfold validate
    rw [if_pos h]
  · intro a h
    unfold validate
    rw [if_neg (by omega : ¬ a < 0x0200), if_pos (by omega : a > 0x7FFF)]
  · intro a h1 h2
    unfold validate
    rw [if_neg (by omega : ¬ a < 0x0200), if_neg (by omega : ¬ a > 0x7FFF)]
  · intro a h
    unfold monitorStartReceive
    cases hv : validate a with
    | ok => exact absurd hv h
    | tooLow => rfl
    | inReservedSpace => rfl

/-- Witness for C7 away from the boundary values. -/
theorem C7_witness :
    validate 0x0100 = AddressCheck.tooLow ∧
    validate 0x9000 = AddressCheck.inReservedSpace ∧
    validate 0x0300 = AddressCheck.ok ∧
    monitorStartReceive 0x0100 = false :=
  ⟨C7_address_validation.2.2.2.2.1 0x0100 (by decide),
   C7_address_validation.2.2.2.2.2.1 0x9000 (by decide),
   C7_address_validation.2.2.2.2.2.2.1 0x0300 (by decide) (by decide),
   C7_address_validation.2.2.2.2.2.2.2 0x0100 (by decide)⟩

/-! ### Parsing lemmas for the monitor helpers -/

theorem dropWhile_eq_self_of_head {p : Char → Bool} {l : List Char}
    (h : ∀ a ∈ l.head?, p a = false) : l.dropWhile p = l := by
  cases l with
  | nil => rfl
  | cons a t =>
      have ha : p a = false := h a rfl
      simp [List.dropWhile_cons, ha]

theorem stripChars_eq_self {l : List Char}
    (h1 : ∀ a ∈ l.head?, a.isWhitespace = false)
    (h2 : ∀ a ∈ l.getLast?, a.isWhitespace = false) :
    stripChars l = l := by
  unfold stripChars
  rw [dropWhile_eq_self_of_head h1]
  rw [dropWhile_eq_self_of_head (by
    intro a ha
    apply h2
    rwa [List.head?_reverse] at ha)]
  exact l.reverse_reverse

theorem splitOnChar_not_mem (c : Char) :
    ∀ l : List Char, c ∉ l → splitOnChar c l = [l] := by
  intro l
  induction l with
  | nil => intro _; rfl
  | cons a t ih =>
      intro h
      have ha : ¬ a = c := fun hh => h (hh ▸ List.mem_cons_self a t)
      have ht : c ∉ t := fun hh => h (List.mem_cons_of_mem a hh)
      simp only [splitOnChar, ih ht, if_neg ha]

theorem splitOnChar_append_sep (c : Char) :
    ∀ (l m : List Char), c ∉ l →
      splitOnChar c (l ++ c :: m) = l :: splitOnChar c m := by
  intro l
  induction l with
  | nil =>
      intro m _
      simp [splitOnChar]
  | cons a t ih =>
      intro m h
      have ha : ¬ a = c := fun hh => h (hh ▸ List.mem_cons_self a t)
      have ht : c ∉ t := fun hh => h (List.mem_cons_of_mem a hh)
      simp only [List.cons_append, splitOnChar, List.append_eq, ih m ht,
        if_neg ha]

theorem wsSplitAux_no_ws :
    ∀ (l acc : List Char), (∀ a ∈ l, a.isWhitespace = false) →
      (acc = [] → l ≠ []) →
      wsSplitAux l acc = [acc.reverse ++ l] := by
  intro l
  induction l with
  | nil =>
      intro acc _ hne
      have hacc : ¬ acc = [] := fun h => (hne h) rfl
      simp [wsSplitAux, hacc]
  | cons a t ih =>
      intro acc hws _
      have ha : a.isWhitespace = false := hws a (List.mem_cons_self a t)
      simp only [wsSplitAux, ha, Bool.false_eq_true, if_false]
      rw [ih (a :: acc) (fun x hx => hws x (List.mem_cons_of_mem a hx))
        (fun h => absurd h (List.cons_ne_nil a acc))]
      simp

theorem wsSplit_no_ws {l : List Char} (hne : l ≠ [])
    (hws : ∀ a ∈ l, a.isWhitespace = false) : wsSplit l = [l] := by
  unfold wsSplit
  rw [wsSplitAux_no_ws l [] hws (fun _ => hne)]
  simp

theorem examine_wellformed_line (req addr : List Char) (v1 v2 : Char)
    (rest : List Char)
    (haddr : ∀ ch ∈ addr, ch.isWhitespace = false ∧ ch ≠ ':' ∧ ch ≠ '\n')
    (h1w : v1.isWhitespace = false) (h1c : v1 ≠ ':') (h1n : v1 ≠ '\n')
    (h2w : v2.isWhitespace = false) (h2c : v2 ≠ ':') (h2n : v2 ≠ '\n') :
    examine req ((addr ++ ':' :: ' ' :: [v1, v2]) ++ '\n' :: rest)
      = ExamineOutcome.value (upperChars [v1, v2]) := by
  unfold examine
  have hnl : '\n' ∉ addr ++ ':' :: ' ' :: [v1, v2] := by
    intro hmem
    rcases List.mem_append.mp hmem with hA | hB
    · exact (haddr '\n' hA).2.2 rfl
    · rcases List.mem_cons.mp hB with hB | hB
      · exact absurd hB.symm (by decide)
      · rcases List.mem_cons.mp hB with hB | hB
        · exact absurd hB.symm (by decide)
        · rcases List.mem_cons.mp hB with hB | hB
          · exact h1n hB.symm
          · rcases List.mem_cons.mp hB with hB | hB
            · exact h2n hB.symm
            · simp at hB
  dsimp only
  rw [splitOnChar_append_sep '\n' _ rest hnl]
  simp only [examineLines]
  have hstrip : stripChars (addr ++ ':' :: ' ' :: [v1, v2])
      = addr ++ ':' :: ' ' :: [v1, v2] := by
    apply stripChars_eq_self
    · intro a ha
      rw [List.head?_append] at ha
      cases hh : addr.head? with
      | none => rw [hh] at ha; simp at ha; rw [← ha]; decide
      | some x =>
          rw [hh] at ha
          simp at ha
          subst ha
          exact (haddr x (List.mem_of_mem_head? (by rw [hh]; rfl))).1
    · intro a ha
      rw [List.getLast?_append] at ha
      simp at ha
      subst ha
      exact h2w
  rw [hstrip]
  have hcont : (addr ++ ':' :: ' ' :: [v1, v2]).contains ':' = true := by
    simp
  rw [hcont]
  simp only [if_true]
  have hcoladdr : ':' ∉ addr := fun hh => (haddr ':' hh).2.1 rfl
  have hparts : splitOnChar ':' (addr ++ ':' :: ' ' :: [v1, v2])
      = addr :: [' ' :: [v1, v2]] := by
    rw [splitOnChar_append_sep ':' addr (' ' :: [v1, v2]) hcoladdr]
    rw [splitOnChar_not_mem ':' (' ' :: [v1, v2]) (by
      intro hmem
      rcases List.mem_cons.mp hmem with hB | hB
      · exact absurd hB.symm (by decide)
      · rcases List.mem_cons.mp hB with hB | hB
        · exact h1c hB.symm
        · rcases List.mem_cons.mp hB with hB | hB
          · exact h2c hB.symm
          · simp at hB)]
  rw [hparts]
  simp only [List.length_cons, List.length_singleton, List.getD_cons_succ,
    List.getD_cons_zero]
  have hsp : (' ' : Char).isWhitespace = true := by decide
  have hstrip2 : stripChars (' ' :: [v1, v2]) = [v1, v2] := by
    simp [stripChars, List.dropWhile_cons, hsp, h1w, h2w]
  rw [if_pos (by omega)]
  rw [hstrip2]
  rw [wsSplit_no_ws (by simp) (by
    intro a ha
    rcases List.mem_cons.mp ha with hB | hB
    · subst hB; exact h1w
    · rcases List.mem_cons.mp hB with hB | hB
      · subst hB; exact h2w
      · simp at hB)]
  simp

/-- C8 counterexample: `examine` returns a value parsed from a line whose
address field (`3FFF`) does not match the requested address (`0200`), and
`deposit` reports success for a response in which the address and value
appear only embedded inside larger tokens — both are substring-shaped, not
field-anchored. -/
theorem C8_counterexample :
    examine ['0', '2', '0', '0'] ['3', 'F', 'F', 'F', ':', ' ', 'A', 'B']
      = ExamineOutcome.value ['A', 'B'] ∧
    deposit ['0', '2', '0', '0'] ['A', 'A']
        ['1', '0', '2', '0', '0', 'B', 'A', 'A', 'C'] = true := by
  decide

/-- C8 (amended): `examine` scans the response lines for the first line
containing a colon whose first whitespace-token after the colon has exactly
two characters and returns that token uppercased — it never compares the
line's address field with the requested address (the parse is independent of
the request); `deposit` reports success exactly when the uppercased response
contains the uppercased address and value as substrings anywhere, not as
discrete fields. -/
theorem C8_parsing_behavior :
    (∀ req1 req2 r : List Char, examine req1 r = examine req2 r) ∧
    (∀ a v r : List Char,
        deposit a v r = (pyIn (upperChars a) (upperChars r)
          && pyIn (upperChars v) (upperChars r))) ∧
    (∀ (req addr : List Char) (v1 v2 : Char) (rest : List Char),
        (∀ ch ∈ addr, ch.isWhitespace = false ∧ ch ≠ ':' ∧ ch ≠ '\n') →
        v1.isWhitespace = false → v1 ≠ ':' → v1 ≠ '\n' →
        v2.isWhitespace = false → v2 ≠ ':' → v2 ≠ '\n' →
        examine req ((addr ++ ':' :: ' ' :: [v1, v2]) ++ '\n' :: rest)
          = ExamineOutcome.value (upperChars [v1, v2])) := by
  refine ⟨fun _ _ _ => rfl, fun _ _ _ => rfl, ?_⟩
  intro req addr v1 v2 rest haddr h1w h1c h1n h2w h2c h2n
  exact examine_wellformed_line req addr v1 v2 rest haddr h1w h1c h1n h2w
    h2c h2n

/-- Witness for C8: a well-formed `0200: 5C` response line parses to `5C`
regardless of the requested address. -/
theorem C8_witness :
    examine ['F', 'F', 'F', 'F']
        ((['0', '2', '0', '0'] ++ ':' :: ' ' :: ['5', 'C']) ++ '\n' :: [])
      = ExamineOutcome.value (upperChars ['5', 'C']) :=
  C8_parsing_behavior.2.2 ['F', 'F', 'F', 'F'] ['0', '2', '0', '0'] '5' 'C'
    [] (by decide) (by decide) (by decide) (by decide) (by decide)
    (by decide) (by decide)

end RetroCPU
